import Mathlib

/-!
# Verification of the cs135 cross-validation splitter and binary metrics

Shallow embedding of `src/hw1/cross_validation.py`
(`make_train_and_test_row_ids_for_n_fold_cv`) and
`src/hw2/binary_metrics.py` (`calc_TP_TN_FP_FN`, `calc_ACC`, `calc_TPR`,
`calc_PPV`), and proofs of the specified properties.

Modelling conventions:
* 1-D numpy integer arrays are `List Nat`; a shape comparison of 1-D arrays
  is a length comparison.
* The numpy pseudorandom generator is abstract: a generator is an opaque
  internal state (`Nat`), `np.random.RandomState(int(seed))` is an
  unspecified deterministic function `initState : Int → Nat` of the seed,
  and `random_state.shuffle` applied to `np.arange n` is an unspecified
  function `shuffle : Nat → Nat → List Nat` of the generator state; the
  theorems assume only that it returns a permutation of `List.range n`,
  which is what a Fisher-Yates shuffle of `arange n` produces.
* A Python call that raises (`ZeroDivisionError`/`ValueError` on
  `n_folds <= 0`, the `assert` on shape mismatch) is modelled as `none`;
  a normal return is `some`.
* Python floats are modelled as exact rationals (`ℚ`), with the literal
  `1e-10` as `1 / 10 ^ 10`.
-/

/-- `np.setdiff1d(xs, ys)`: the sorted unique values of `xs` that are not
in `ys`.  (The sorted arrangement of the distinct values is unique, so the
choice of sorting algorithm is immaterial.) -/
def npSetdiff1d (xs ys : List Nat) : List Nat :=
  (List.insertionSort (fun a b => a ≤ b) xs.dedup).filter
    (fun a => decide (a ∉ ys))

/-- The fold-size array of `make_train_and_test_row_ids_for_n_fold_cv`:
`fold_sizes = np.full(n_folds, n_examples // n_folds)` followed by
`fold_sizes[:n_examples % n_folds] += 1`. -/
def foldSizes (n_examples n_folds : Nat) : List Nat :=
  (List.range n_folds).map
    (fun i => n_examples / n_folds + (if i < n_examples % n_folds then 1 else 0))

/-- The fold loop of `make_train_and_test_row_ids_for_n_fold_cv`: for each
`fold_size`, `test_ids = all_indices[current:current + fold_size]` and
`train_ids = np.setdiff1d(all_indices, test_ids)`, with
`current += fold_size`.  Returns
`(train_ids_per_fold, test_ids_per_fold)`. -/
def makeFolds (all_indices : List Nat) :
    List Nat → Nat → List (List Nat) × List (List Nat)
  | [], _ => ([], [])
  | fold_size :: rest, current =>
      let test_ids := (all_indices.drop current).take fold_size
      let train_ids := npSetdiff1d all_indices test_ids
      let prev := makeFolds all_indices rest (current + fold_size)
      (train_ids :: prev.1, test_ids :: prev.2)

/-- The `random_state` argument of the splitter: either an
already-initialized generator (the `hasattr(random_state, 'rand')` branch,
used directly) or an integer seed (from which a fresh generator is
constructed). -/
inductive RandomStateArg where
  | gen (g : Nat)
  | seed (s : Int)

/-- The generator state the splitter ends up shuffling with: a passed-in
generator is used directly; an integer seed is passed through
`np.random.RandomState(int(seed))`, modelled by `initState`. -/
def generatorState (initState : Int → Nat) : RandomStateArg → Nat
  | .gen g => g
  | .seed s => initState s

/-- `make_train_and_test_row_ids_for_n_fold_cv(n_examples, n_folds,
random_state)`.  `shuffle g n` models shuffling `np.arange n` with a
generator in state `g`; `initState s` models the state of
`np.random.RandomState(int(s))`.  For `n_folds <= 0` Python raises
(`ZeroDivisionError` at `n_examples // n_folds` when `n_folds == 0`,
`ValueError` at `np.full` when `n_folds < 0`), modelled as `none`. -/
def make_train_and_test_row_ids_for_n_fold_cv
    (shuffle : Nat → Nat → List Nat) (initState : Int → Nat)
    (n_examples : Nat) (n_folds : Int) (random_state : RandomStateArg) :
    Option (List (List Nat) × List (List Nat)) :=
  let all_indices := shuffle (generatorState initState random_state) n_examples
  if n_folds ≤ 0 then none
  else some (makeFolds all_indices (foldSizes n_examples n_folds.toNat) 0)

section Sanity

/-- The identity "shuffle": leaves `np.arange n` in order.  A valid
instance of the abstract generator model, used to instantiate witnesses. -/
def idShuffle : Nat → Nat → List Nat := fun _ n => List.range n

example :
    make_train_and_test_row_ids_for_n_fold_cv idShuffle Int.toNat
      5 2 (.seed 0) =
    some ([[3, 4], [0, 1, 2]], [[0, 1, 2], [3, 4]]) := by decide

example :
    make_train_and_test_row_ids_for_n_fold_cv idShuffle Int.toNat
      5 (-1) (.seed 0) = none := by decide

end Sanity

/-! ## Binary metrics (`src/hw2/binary_metrics.py`)

Label arrays are cast to integers (`np.asarray(..., dtype=np.int32)`); the
documented precondition is that every entry is 0 or 1, for which the
int32 arithmetic below agrees with `Nat` arithmetic.  The `assert` on the
shapes is modelled by the length guard returning `none`. -/

/-- `calc_TP_TN_FP_FN(ytrue_N, yhat_N)`: after the shape assert,
`TP = sum(ytrue & yhat)`, `TN = sum((1-ytrue) & (1-yhat))`,
`FP = sum((1-ytrue) & yhat)`, `FN = sum(ytrue & (1-yhat))`, all
elementwise over the two arrays. -/
def calc_TP_TN_FP_FN (ytrue_N yhat_N : List Nat) :
    Option (Nat × Nat × Nat × Nat) :=
  if ytrue_N.length = yhat_N.length then
    some ((List.zipWith (fun a b => a &&& b) ytrue_N yhat_N).sum,
          (List.zipWith (fun a b => (1 - a) &&& (1 - b)) ytrue_N yhat_N).sum,
          (List.zipWith (fun a b => (1 - a) &&& b) ytrue_N yhat_N).sum,
          (List.zipWith (fun a b => a &&& (1 - b)) ytrue_N yhat_N).sum)
  else none

/-- The literal `1e-10` added to each denominator, as an exact rational. -/
def eps : ℚ := 1 / 10 ^ 10

/-- `calc_ACC`: `(TP + TN) / (TP + TN + FP + FN + 1e-10)`. -/
def calc_ACC (ytrue_N yhat_N : List Nat) : Option ℚ :=
  (calc_TP_TN_FP_FN ytrue_N yhat_N).map
    (fun r =>
      ((r.1 : ℚ) + r.2.1) / ((r.1 : ℚ) + r.2.1 + r.2.2.1 + r.2.2.2 + eps))

/-- `calc_TPR`: `TP / (TP + FN + 1e-10)`. -/
def calc_TPR (ytrue_N yhat_N : List Nat) : Option ℚ :=
  (calc_TP_TN_FP_FN ytrue_N yhat_N).map
    (fun r => (r.1 : ℚ) / ((r.1 : ℚ) + r.2.2.2 + eps))

/-- `calc_PPV`: `TP / (TP + FP + 1e-10)`. -/
def calc_PPV (ytrue_N yhat_N : List Nat) : Option ℚ :=
  (calc_TP_TN_FP_FN ytrue_N yhat_N).map
    (fun r => (r.1 : ℚ) / ((r.1 : ℚ) + r.2.2.1 + eps))

section SanityMetrics

/-- The doctest example of `binary_metrics.py`. -/
example :
    calc_TP_TN_FP_FN [0, 0, 0, 0, 1, 1, 1, 1] [0, 0, 1, 0, 1, 1, 0, 0] =
      some (2, 3, 1, 2) := by decide

example : calc_TP_TN_FP_FN [0, 1] [0, 1, 1] = none := by decide

example : calc_TPR [] [] = some 0 := by
  norm_num [calc_TPR, calc_TP_TN_FP_FN]

example : calc_PPV [] [] = some 0 := by
  norm_num [calc_PPV, calc_TP_TN_FP_FN]

end SanityMetrics

/-! ## Helper lemmas: `np.setdiff1d` -/

theorem mem_npSetdiff1d {xs ys : List Nat} {a : Nat} :
    a ∈ npSetdiff1d xs ys ↔ a ∈ xs ∧ a ∉ ys := by
  simp [npSetdiff1d, List.mem_filter, List.mem_insertionSort, List.mem_dedup]

theorem nodup_npSetdiff1d (xs ys : List Nat) : (npSetdiff1d xs ys).Nodup :=
  List.Nodup.filter _
    (((List.perm_insertionSort _ _).nodup_iff).mpr (List.nodup_dedup xs))

theorem length_npSetdiff1d {xs ys : List Nat} (hx : xs.Nodup) (hy : ys.Nodup)
    (hsub : ys ⊆ xs) :
    (npSetdiff1d xs ys).length = xs.length - ys.length := by
  have h1 : (npSetdiff1d xs ys).toFinset = xs.toFinset \ ys.toFinset := by
    ext a
    simp [mem_npSetdiff1d, List.mem_toFinset]
  have h2 := List.toFinset_card_of_nodup (nodup_npSetdiff1d xs ys)
  have hss : ys.toFinset ⊆ xs.toFinset := by
    intro a ha
    rw [List.mem_toFinset] at ha ⊢
    exact hsub ha
  rw [← h2, h1, Finset.card_sdiff hss, List.toFinset_card_of_nodup hx,
    List.toFinset_card_of_nodup hy]

/-! ## Helper lemmas: the fold loop -/

theorem makeFolds_fst (ids : List Nat) :
    ∀ (sizes : List Nat) (c : Nat),
      (makeFolds ids sizes c).1 = (makeFolds ids sizes c).2.map (npSetdiff1d ids)
  | [], _ => rfl
  | s :: rest, c => by
    simp [makeFolds, makeFolds_fst ids rest (c + s)]

theorem makeFolds_snd_length (ids : List Nat) :
    ∀ (sizes : List Nat) (c : Nat),
      (makeFolds ids sizes c).2.length = sizes.length
  | [], _ => rfl
  | s :: rest, c => by
    simp [makeFolds, makeFolds_snd_length ids rest (c + s)]

theorem makeFolds_snd_flatten (ids : List Nat) :
    ∀ (sizes : List Nat) (c : Nat),
      (makeFolds ids sizes c).2.flatten = (ids.drop c).take sizes.sum
  | [], c => by simp [makeFolds]
  | s :: rest, c => by
    simp only [makeFolds, List.flatten_cons,
      makeFolds_snd_flatten ids rest (c + s), List.sum_cons]
    rw [List.take_add, List.drop_drop]

theorem makeFolds_snd_slice (ids : List Nat) :
    ∀ (sizes : List Nat) (c : Nat) (te : List Nat),
      te ∈ (makeFolds ids sizes c).2 → ∃ c' s', te = (ids.drop c').take s'
  | [], _, te, h => absurd h (by simp [makeFolds])
  | s :: rest, c, te, h => by
    simp only [makeFolds, List.mem_cons] at h
    rcases h with h | h
    · exact ⟨c, s, h⟩
    · exact makeFolds_snd_slice ids rest (c + s) te h

theorem makeFolds_snd_map_length (ids : List Nat) :
    ∀ (sizes : List Nat) (c : Nat), c + sizes.sum ≤ ids.length →
      (makeFolds ids sizes c).2.map List.length = sizes
  | [], _, _ => rfl
  | s :: rest, c, h => by
    simp only [List.sum_cons] at h
    simp only [makeFolds, List.map_cons]
    rw [makeFolds_snd_map_length ids rest (c + s) (by omega)]
    simp only [List.length_take, List.length_drop]
    congr 1
    omega

/-! ## Helper lemmas: counting across folds -/

theorem countP_mem_flatten_nodup {α : Type} [DecidableEq α] (a : α) :
    ∀ (L : List (List α)), L.flatten.Nodup → a ∈ L.flatten →
      L.countP (fun l => decide (a ∈ l)) = 1
  | [], _, ha => absurd ha (by simp)
  | l :: L, h, ha => by
    rw [List.flatten_cons] at h ha
    rw [List.nodup_append] at h
    rw [List.countP_cons]
    rcases List.mem_append.mp ha with h1 | h2
    · have hnot : a ∉ L.flatten := fun hm => h.2.2 h1 hm
      have hz : L.countP (fun l => decide (a ∈ l)) = 0 :=
        List.countP_eq_zero.mpr (fun l' hl' => by
          simp only [decide_eq_true_eq]
          exact fun hal' => hnot (List.mem_flatten.mpr ⟨l', hl', hal'⟩))
      simp [hz, h1]
    · have hnotl : a ∉ l := fun hal => h.2.2 hal h2
      rw [countP_mem_flatten_nodup a L h.2.1 h2]
      simp [hnotl]

theorem countP_not_mem_eq (a : Nat) (L : List (List Nat)) :
    L.countP (fun l => decide (a ∉ l)) =
      L.length - L.countP (fun l => decide (a ∈ l)) := by
  have h := List.length_eq_countP_add_countP (fun l => decide (a ∈ l)) L
  have he : L.countP (fun l => decide (a ∉ l)) =
      L.countP (fun l => decide ¬(decide (a ∈ l) = true)) := by
    apply List.countP_congr
    intro l _
    simp
  omega

/-! ## Helper lemmas: fold sizes -/

theorem length_foldSizes (N k : Nat) : (foldSizes N k).length = k := by
  simp [foldSizes]

theorem getElem_foldSizes (N k : Nat) (f : Nat) (hf : f < (foldSizes N k).length) :
    (foldSizes N k)[f] = N / k + if f < N % k then 1 else 0 := by
  simp [foldSizes]

theorem sum_range_map_add_ite (q m : Nat) :
    ∀ k, ((List.range k).map (fun i => q + if i < m then 1 else 0)).sum
      = k * q + min m k
  | 0 => by simp
  | k + 1 => by
    rw [List.range_succ, List.map_append, List.sum_append,
      sum_range_map_add_ite q m k]
    by_cases h : k < m
    · simp only [List.map_cons, List.map_nil, if_pos h]
      have h1 : min m k = k := by omega
      have h2 : min m (k + 1) = k + 1 := by omega
      rw [h1, h2]
      simp
      ring
    · simp only [List.map_cons, List.map_nil, if_neg h]
      have h1 : min m k = m := by omega
      have h2 : min m (k + 1) = m := by omega
      rw [h1, h2]
      simp
      ring

theorem make_eq_some (shuffle : Nat → Nat → List Nat) (initState : Int → Nat)
    (N : Nat) (k : Int) (rs : RandomStateArg) (hk : 0 < k) :
    make_train_and_test_row_ids_for_n_fold_cv shuffle initState N k rs =
      some (makeFolds (shuffle (generatorState initState rs) N)
        (foldSizes N k.toNat) 0) := by
  simp only [make_train_and_test_row_ids_for_n_fold_cv]
  rw [if_neg (by omega)]

theorem sum_foldSizes (N k : Nat) (hk : 0 < k) : (foldSizes N k).sum = N := by
  rw [foldSizes, sum_range_map_add_ite]
  have h1 : min (N % k) k = N % k := by
    have := Nat.mod_lt N hk
    omega
  rw [h1]
  exact Nat.div_add_mod N k

/-! ## Master lemmas: the fold lists produced for a shuffled index list

Throughout, `ids` is the shuffled `np.arange N`, i.e. an arbitrary
permutation of `List.range N`, and `0 < k` is the fold count. -/

theorem perm_length {ids : List Nat} {N : Nat}
    (hperm : ids.Perm (List.range N)) : ids.length = N := by
  simpa using hperm.length_eq

theorem perm_nodup {ids : List Nat} {N : Nat}
    (hperm : ids.Perm (List.range N)) : ids.Nodup :=
  hperm.nodup_iff.mpr (List.nodup_range N)

theorem perm_mem {ids : List Nat} {N : Nat}
    (hperm : ids.Perm (List.range N)) (a : Nat) : a ∈ ids ↔ a < N := by
  rw [hperm.mem_iff, List.mem_range]

theorem tests_flatten {ids : List Nat} {N k : Nat}
    (hperm : ids.Perm (List.range N)) (hk : 0 < k) :
    (makeFolds ids (foldSizes N k) 0).2.flatten = ids := by
  rw [makeFolds_snd_flatten, sum_foldSizes N k hk, List.drop_zero,
    ← perm_length hperm, List.take_length]

theorem tests_length {ids : List Nat} {N k : Nat} :
    (makeFolds ids (foldSizes N k) 0).2.length = k := by
  rw [makeFolds_snd_length, length_foldSizes]

theorem trains_length {ids : List Nat} {N k : Nat} :
    (makeFolds ids (foldSizes N k) 0).1.length = k := by
  rw [makeFolds_fst, List.length_map, tests_length]

theorem tests_map_length {ids : List Nat} {N k : Nat}
    (hperm : ids.Perm (List.range N)) (hk : 0 < k) :
    (makeFolds ids (foldSizes N k) 0).2.map List.length = foldSizes N k := by
  apply makeFolds_snd_map_length
  rw [sum_foldSizes N k hk, perm_length hperm]
  omega

theorem tests_getElem_length {ids : List Nat} {N k : Nat}
    (hperm : ids.Perm (List.range N)) (hk : 0 < k)
    (f : Nat) (hf : f < (makeFolds ids (foldSizes N k) 0).2.length) :
    (makeFolds ids (foldSizes N k) 0).2[f].length
      = N / k + if f < N % k then 1 else 0 := by
  have hf2 : f < ((makeFolds ids (foldSizes N k) 0).2.map List.length).length := by
    rw [List.length_map]
    exact hf
  have h1 : ((makeFolds ids (foldSizes N k) 0).2.map List.length)[f]
      = (makeFolds ids (foldSizes N k) 0).2[f].length := List.getElem_map _
  have hf3 : f < (foldSizes N k).length := by
    rw [length_foldSizes]
    rw [tests_length] at hf
    exact hf
  rw [← h1, List.getElem_of_eq (tests_map_length hperm hk) hf2]
  exact getElem_foldSizes N k f hf3

theorem tests_sublist {ids : List Nat} {sizes : List Nat} {c : Nat}
    {te : List Nat} (hte : te ∈ (makeFolds ids sizes c).2) : te.Sublist ids := by
  obtain ⟨c', s', rfl⟩ := makeFolds_snd_slice ids sizes c te hte
  exact (List.take_sublist _ _).trans (List.drop_sublist _ _)

theorem trains_getElem {ids : List Nat} {sizes : List Nat} {c : Nat}
    (f : Nat) (hf : f < (makeFolds ids sizes c).1.length)
    (hf' : f < (makeFolds ids sizes c).2.length) :
    (makeFolds ids sizes c).1[f] = npSetdiff1d ids (makeFolds ids sizes c).2[f] := by
  rw [List.getElem_of_eq (makeFolds_fst ids sizes c) hf]
  exact List.getElem_map _

theorem fold_partition {ids : List Nat} {N : Nat}
    (hperm : ids.Perm (List.range N)) {sizes : List Nat} {c : Nat} (f : Nat)
    (hf : f < (makeFolds ids sizes c).1.length)
    (hf' : f < (makeFolds ids sizes c).2.length) :
    (∀ a, (a ∈ (makeFolds ids sizes c).1[f] ∨ a ∈ (makeFolds ids sizes c).2[f])
        ↔ a < N) ∧
    (∀ a, ¬(a ∈ (makeFolds ids sizes c).1[f] ∧ a ∈ (makeFolds ids sizes c).2[f])) ∧
    (makeFolds ids sizes c).1[f].length + (makeFolds ids sizes c).2[f].length = N := by
  have hnd : ids.Nodup := perm_nodup hperm
  have hsub : ((makeFolds ids sizes c).2[f]).Sublist ids :=
    tests_sublist (List.getElem_mem hf')
  have htr := trains_getElem f hf hf'
  refine ⟨?_, ?_, ?_⟩
  · intro a
    rw [htr, mem_npSetdiff1d, ← perm_mem hperm a]
    constructor
    · rintro (⟨h1, _⟩ | h1)
      · exact h1
      · exact hsub.subset h1
    · intro h1
      by_cases h2 : a ∈ (makeFolds ids sizes c).2[f]
      · exact Or.inr h2
      · exact Or.inl ⟨h1, h2⟩
  · intro a
    rw [htr, mem_npSetdiff1d]
    rintro ⟨⟨_, h1⟩, h2⟩
    exact h1 h2
  · rw [htr, length_npSetdiff1d hnd (hsub.nodup hnd) hsub.subset]
    have := hsub.length_le
    have := perm_length hperm
    omega

/-- **C1**: for every `n_examples ≥ 0` and positive `n_folds`, and every
fold `f` returned by `make_train_and_test_row_ids_for_n_fold_cv`, the
union of `train_ids_per_fold[f]` and `test_ids_per_fold[f]` as sets is
`{0, ..., N-1}`, their intersection is empty, and the sum of their sizes
is `N`. -/
theorem C1_fold_partition
    (shuffle : Nat → Nat → List Nat) (initState : Int → Nat)
    (hshuffle : ∀ g n, (shuffle g n).Perm (List.range n))
    (N : Nat) (k : Int) (hk : 0 < k) (rs : RandomStateArg) :
    ∃ tr te,
      make_train_and_test_row_ids_for_n_fold_cv shuffle initState N k rs
        = some (tr, te) ∧
      ∀ f (hf : f < tr.length) (hf' : f < te.length),
        (∀ a, (a ∈ tr[f] ∨ a ∈ te[f]) ↔ a < N) ∧
        (∀ a, ¬(a ∈ tr[f] ∧ a ∈ te[f])) ∧
        tr[f].length + te[f].length = N := by
  rw [make_eq_some shuffle initState N k rs hk]
  exact ⟨_, _, rfl, fun f hf hf' => fold_partition (hshuffle _ N) f hf hf'⟩

/-- Witness for C1 at `N = 5`, `n_folds = 2`, seed `0`, identity shuffle. -/
theorem C1_fold_partition_witness :
    (∀ g n, (idShuffle g n).Perm (List.range n)) ∧ ((0 : Int) < 2) ∧
    (∃ tr te,
      make_train_and_test_row_ids_for_n_fold_cv idShuffle Int.toNat 5 2
          (.seed 0) = some (tr, te) ∧
      ∀ f (hf : f < tr.length) (hf' : f < te.length),
        (∀ a, (a ∈ tr[f] ∨ a ∈ te[f]) ↔ a < 5) ∧
        (∀ a, ¬(a ∈ tr[f] ∧ a ∈ te[f])) ∧
        tr[f].length + te[f].length = 5) :=
  ⟨fun _ n => List.Perm.refl _, by decide,
    C1_fold_partition idShuffle Int.toNat (fun _ n => List.Perm.refl _)
      5 2 (by decide) (.seed 0)⟩

theorem tests_flatten_nodup {ids : List Nat} {N k : Nat}
    (hperm : ids.Perm (List.range N)) (hk : 0 < k) :
    (makeFolds ids (foldSizes N k) 0).2.flatten.Nodup := by
  rw [tests_flatten hperm hk]
  exact perm_nodup hperm

theorem countP_tests_eq_one {ids : List Nat} {N k : Nat}
    (hperm : ids.Perm (List.range N)) (hk : 0 < k) {a : Nat} (ha : a < N) :
    (makeFolds ids (foldSizes N k) 0).2.countP (fun te => decide (a ∈ te)) = 1 := by
  apply countP_mem_flatten_nodup a _ (tests_flatten_nodup hperm hk)
  rw [tests_flatten hperm hk]
  exact (perm_mem hperm a).mpr ha

theorem countP_trains_eq {ids : List Nat} {N k : Nat}
    (hperm : ids.Perm (List.range N)) (hk : 0 < k) {a : Nat} (ha : a < N) :
    (makeFolds ids (foldSizes N k) 0).1.countP (fun tr => decide (a ∈ tr))
      = k - 1 := by
  have hmem : a ∈ ids := (perm_mem hperm a).mpr ha
  rw [makeFolds_fst, List.countP_map]
  have h2 : ∀ te ∈ (makeFolds ids (foldSizes N k) 0).2,
      ((fun tr => decide (a ∈ tr)) ∘ npSetdiff1d ids) te = true
        ↔ (fun te => decide (a ∉ te)) te = true := by
    intro te _
    simp [mem_npSetdiff1d, hmem]
  rw [List.countP_congr h2, countP_not_mem_eq, tests_length,
    countP_tests_eq_one hperm hk ha]

/-- **C2**: the test-id sets are pairwise disjoint across folds, their
union covers `{0, ..., N-1}` with each example index in exactly one test
fold, and each example index lies in the train sets of exactly
`n_folds - 1` folds. -/
theorem C2_cross_fold_invariant
    (shuffle : Nat → Nat → List Nat) (initState : Int → Nat)
    (hshuffle : ∀ g n, (shuffle g n).Perm (List.range n))
    (N : Nat) (k : Int) (hk : 0 < k) (rs : RandomStateArg) :
    ∃ tr te,
      make_train_and_test_row_ids_for_n_fold_cv shuffle initState N k rs
        = some (tr, te) ∧
      te.Pairwise List.Disjoint ∧
      te.flatten.Perm (List.range N) ∧
      (∀ a, a < N → te.countP (fun t => decide (a ∈ t)) = 1) ∧
      (∀ a, a < N → tr.countP (fun t => decide (a ∈ t)) = k.toNat - 1) := by
  rw [make_eq_some shuffle initState N k rs hk]
  have hperm := hshuffle (generatorState initState rs) N
  have hk' : 0 < k.toNat := by omega
  refine ⟨_, _, rfl, ?_, ?_, ?_, ?_⟩
  · exact (List.nodup_flatten.mp (tests_flatten_nodup hperm hk')).2
  · rw [tests_flatten hperm hk']
    exact hperm
  · exact fun a ha => countP_tests_eq_one hperm hk' ha
  · exact fun a ha => countP_trains_eq hperm hk' ha

/-- Witness for C2 at `N = 5`, `n_folds = 2`, seed `0`, identity shuffle. -/
theorem C2_cross_fold_invariant_witness :
    (∀ g n, (idShuffle g n).Perm (List.range n)) ∧ ((0 : Int) < 2) ∧
    (∃ tr te,
      make_train_and_test_row_ids_for_n_fold_cv idShuffle Int.toNat 5 2
          (.seed 0) = some (tr, te) ∧
      te.Pairwise List.Disjoint ∧
      te.flatten.Perm (List.range 5) ∧
      (∀ a, a < 5 → te.countP (fun t => decide (a ∈ t)) = 1) ∧
      (∀ a, a < 5 → tr.countP (fun t => decide (a ∈ t)) = (2 : Int).toNat - 1)) :=
  ⟨fun _ n => List.Perm.refl _, by decide,
    C2_cross_fold_invariant idShuffle Int.toNat (fun _ n => List.Perm.refl _)
      5 2 (by decide) (.seed 0)⟩

/-- **C3**: the shuffled sequence is partitioned into `n_folds` contiguous
blocks of size `N / n_folds`, the first `N % n_folds` blocks one larger;
the test-fold sizes sum to `N` and differ pairwise by at most 1. -/
theorem C3_fold_sizes
    (shuffle : Nat → Nat → List Nat) (initState : Int → Nat)
    (hshuffle : ∀ g n, (shuffle g n).Perm (List.range n))
    (N : Nat) (k : Int) (hk : 0 < k) (rs : RandomStateArg) :
    ∃ tr te,
      make_train_and_test_row_ids_for_n_fold_cv shuffle initState N k rs
        = some (tr, te) ∧
      te.length = k.toNat ∧
      te.flatten = shuffle (generatorState initState rs) N ∧
      (∀ f (hf : f < te.length),
        te[f].length = N / k.toNat + if f < N % k.toNat then 1 else 0) ∧
      (te.map List.length).sum = N ∧
      (∀ f g (hf : f < te.length) (hg : g < te.length),
        te[f].length ≤ te[g].length + 1) := by
  rw [make_eq_some shuffle initState N k rs hk]
  have hperm := hshuffle (generatorState initState rs) N
  have hk' : 0 < k.toNat := by omega
  refine ⟨_, _, rfl, tests_length, tests_flatten hperm hk', ?_, ?_, ?_⟩
  · exact fun f hf => tests_getElem_length hperm hk' f hf
  · rw [tests_map_length hperm hk', sum_foldSizes N k.toNat hk']
  · intro f g hf hg
    rw [tests_getElem_length hperm hk' f hf, tests_getElem_length hperm hk' g hg]
    split_ifs <;> omega

/-- Witness for C3 at `N = 5`, `n_folds = 2`, seed `0`, identity shuffle. -/
theorem C3_fold_sizes_witness :
    (∀ g n, (idShuffle g n).Perm (List.range n)) ∧ ((0 : Int) < 2) ∧
    (∃ tr te,
      make_train_and_test_row_ids_for_n_fold_cv idShuffle Int.toNat 5 2
          (.seed 0) = some (tr, te) ∧
      te.length = (2 : Int).toNat ∧
      te.flatten = idShuffle (generatorState Int.toNat (.seed 0)) 5 ∧
      (∀ f (hf : f < te.length),
        te[f].length = 5 / (2 : Int).toNat
          + if f < 5 % (2 : Int).toNat then 1 else 0) ∧
      (te.map List.length).sum = 5 ∧
      (∀ f g (hf : f < te.length) (hg : g < te.length),
        te[f].length ≤ te[g].length + 1)) :=
  ⟨fun _ n => List.Perm.refl _, by decide,
    C3_fold_sizes idShuffle Int.toNat (fun _ n => List.Perm.refl _)
      5 2 (by decide) (.seed 0)⟩

/-- **C4**: with an integer seed the splitter is a deterministic function
of `(n_examples, n_folds, seed)`: the fresh generator is constructed from
the seed alone, so two calls with the same integer seed and the same
inputs return identical fold lists. -/
theorem C4_deterministic
    (shuffle : Nat → Nat → List Nat) (initState : Int → Nat)
    (N : Nat) (k : Int) (_hk : 0 < k) (s₁ s₂ : Int) (hs : s₁ = s₂) :
    make_train_and_test_row_ids_for_n_fold_cv shuffle initState N k (.seed s₁)
      = make_train_and_test_row_ids_for_n_fold_cv shuffle initState N k
          (.seed s₂) := by
  rw [hs]

/-- Witness for C4 at `N = 4`, `n_folds = 3`, seed `7`. -/
theorem C4_deterministic_witness :
    ((0 : Int) < 3) ∧ ((7 : Int) = 7) ∧
    make_train_and_test_row_ids_for_n_fold_cv idShuffle Int.toNat 4 3 (.seed 7)
      = make_train_and_test_row_ids_for_n_fold_cv idShuffle Int.toNat 4 3
          (.seed 7) :=
  ⟨by decide, rfl,
    C4_deterministic idShuffle Int.toNat 4 3 (by decide) 7 7 rfl⟩

/-- **C5**: for every `n_examples` and every `n_folds ≤ 0` the splitter
fails immediately (Python raises before any fold is built), producing no
partial result. -/
theorem C5_invalid_fold_count
    (shuffle : Nat → Nat → List Nat) (initState : Int → Nat)
    (N : Nat) (k : Int) (hk : k ≤ 0) (rs : RandomStateArg) :
    make_train_and_test_row_ids_for_n_fold_cv shuffle initState N k rs
      = none := by
  simp [make_train_and_test_row_ids_for_n_fold_cv, hk]

/-- Witness for C5 at `N = 5`, `n_folds = -1`. -/
theorem C5_invalid_fold_count_witness :
    ((-1 : Int) ≤ 0) ∧
    make_train_and_test_row_ids_for_n_fold_cv idShuffle Int.toNat 5 (-1)
      (.seed 0) = none :=
  ⟨by decide,
    C5_invalid_fold_count idShuffle Int.toNat 5 (-1) (by decide) (.seed 0)⟩

theorem npSetdiff1d_eq_nil {xs ys : List Nat} (h : xs ⊆ ys) :
    npSetdiff1d xs ys = [] := by
  apply List.filter_eq_nil_iff.mpr
  intro a ha
  rw [List.mem_insertionSort, List.mem_dedup] at ha
  simp only [decide_eq_true_eq, Decidable.not_not]
  exact h ha

theorem makeFolds_nil_right :
    ∀ (sizes : List Nat) (c : Nat),
      (∀ l ∈ (makeFolds [] sizes c).1, l = []) ∧
      (∀ l ∈ (makeFolds [] sizes c).2, l = [])
  | [], _ => by simp [makeFolds]
  | s :: rest, c => by
    have ih := makeFolds_nil_right rest (c + s)
    simp only [makeFolds, List.mem_cons]
    constructor
    · rintro l (rfl | h)
      · rfl
      · exact ih.1 l h
    · rintro l (rfl | h)
      · simp
      · exact ih.2 l h

/-- **C6**: `n_folds == 1` does not fail and yields one fold whose test
set is the whole shuffled index list and whose train set is empty; and
`n_examples == 0` with any positive `n_folds` yields empty train and test
sets for every fold. -/
theorem C6_edge_cases
    (shuffle : Nat → Nat → List Nat) (initState : Int → Nat)
    (hshuffle : ∀ g n, (shuffle g n).Perm (List.range n))
    (rs : RandomStateArg) :
    (∀ N : Nat,
      make_train_and_test_row_ids_for_n_fold_cv shuffle initState N 1 rs
        = some ([[]], [shuffle (generatorState initState rs) N])) ∧
    (∀ k : Int, 0 < k → ∀ tr te,
      make_train_and_test_row_ids_for_n_fold_cv shuffle initState 0 k rs
        = some (tr, te) →
      (∀ l ∈ tr, l = []) ∧ (∀ l ∈ te, l = [])) := by
  constructor
  · intro N
    rw [make_eq_some shuffle initState N 1 rs (by decide)]
    have hperm := hshuffle (generatorState initState rs) N
    have hsz : foldSizes N (1 : Int).toNat = [N] := by
      simp [foldSizes, List.range_succ, Nat.mod_one]
    rw [hsz]
    simp only [makeFolds, List.drop_zero]
    rw [List.take_of_length_le (le_of_eq (perm_length hperm))]
    rw [npSetdiff1d_eq_nil (fun a ha => ha)]
  · intro k hk tr te hmake
    have hperm := hshuffle (generatorState initState rs) 0
    have hnil : shuffle (generatorState initState rs) 0 = [] :=
      List.eq_nil_of_length_eq_zero (perm_length hperm)
    rw [make_eq_some shuffle initState 0 k rs hk, hnil,
      Option.some.injEq] at hmake
    have ih := makeFolds_nil_right (foldSizes 0 k.toNat) 0
    rw [hmake] at ih
    exact ih

/-- Witness for C6 with the identity shuffle and seed `0`. -/
theorem C6_edge_cases_witness :
    (∀ g n, (idShuffle g n).Perm (List.range n)) ∧
    ((∀ N : Nat,
      make_train_and_test_row_ids_for_n_fold_cv idShuffle Int.toNat N 1
          (.seed 0)
        = some ([[]], [idShuffle (generatorState Int.toNat (.seed 0)) N])) ∧
    (∀ k : Int, 0 < k → ∀ tr te,
      make_train_and_test_row_ids_for_n_fold_cv idShuffle Int.toNat 0 k
          (.seed 0) = some (tr, te) →
      (∀ l ∈ tr, l = []) ∧ (∀ l ∈ te, l = []))) :=
  ⟨fun _ n => List.Perm.refl (List.range n),
    C6_edge_cases idShuffle Int.toNat
      (fun _ n => List.Perm.refl (List.range n)) (.seed 0)⟩

/-- **C10**: with `0 < n_examples < n_folds` the splitter does not fail:
it returns `n_folds` folds, the first `N` test sets are singletons, the
remaining test sets are empty, and every fold with an empty test set has
the full index set `{0, ..., N-1}` as its train set. -/
theorem C10_more_folds_than_examples
    (shuffle : Nat → Nat → List Nat) (initState : Int → Nat)
    (hshuffle : ∀ g n, (shuffle g n).Perm (List.range n))
    (N : Nat) (k : Int) (hN : 0 < N) (hNk : (N : Int) < k)
    (rs : RandomStateArg) :
    ∃ tr te,
      make_train_and_test_row_ids_for_n_fold_cv shuffle initState N k rs
        = some (tr, te) ∧
      tr.length = k.toNat ∧ te.length = k.toNat ∧
      (∀ f (hf : f < te.length), f < N → te[f].length = 1) ∧
      (∀ f (hf : f < te.length), N ≤ f → te[f] = []) ∧
      (∀ f (hf : f < tr.length) (hf' : f < te.length), te[f] = [] →
        ∀ a, a ∈ tr[f] ↔ a < N) := by
  have hk : 0 < k := by omega
  rw [make_eq_some shuffle initState N k rs hk]
  have hperm := hshuffle (generatorState initState rs) N
  have hk' : 0 < k.toNat := by omega
  have hNk' : N < k.toNat := by omega
  have hdiv : N / k.toNat = 0 := Nat.div_eq_of_lt hNk'
  have hmod : N % k.toNat = N := Nat.mod_eq_of_lt hNk'
  refine ⟨_, _, rfl, trains_length, tests_length, ?_, ?_, ?_⟩
  · intro f hf hfN
    rw [tests_getElem_length hperm hk' f hf, hdiv, hmod, if_pos hfN]
  · intro f hf hfN
    have h1 := tests_getElem_length hperm hk' f hf
    rw [hdiv, hmod, if_neg (by omega)] at h1
    exact List.eq_nil_of_length_eq_zero h1
  · intro f hf hf' hempty a
    rw [trains_getElem f hf hf', hempty, mem_npSetdiff1d]
    simp [perm_mem hperm a]

/-- Witness for C10 at `N = 2`, `n_folds = 5`, seed `0`, identity
shuffle. -/
theorem C10_more_folds_than_examples_witness :
    (∀ g n, (idShuffle g n).Perm (List.range n)) ∧ (0 < 2) ∧
    ((2 : Int) < 5) ∧
    (∃ tr te,
      make_train_and_test_row_ids_for_n_fold_cv idShuffle Int.toNat 2 5
          (.seed 0) = some (tr, te) ∧
      tr.length = (5 : Int).toNat ∧ te.length = (5 : Int).toNat ∧
      (∀ f (hf : f < te.length), f < 2 → te[f].length = 1) ∧
      (∀ f (hf : f < te.length), 2 ≤ f → te[f] = []) ∧
      (∀ f (hf : f < tr.length) (hf' : f < te.length), te[f] = [] →
        ∀ a, a ∈ tr[f] ↔ a < 2)) :=
  ⟨fun _ n => List.Perm.refl _, by decide, by decide,
    C10_more_folds_than_examples idShuffle Int.toNat
      (fun _ n => List.Perm.refl _) 2 5 (by decide) (by decide) (.seed 0)⟩

/-! ## Helper lemmas: confusion counts -/

theorem confusion_counts :
    ∀ (ytrue yhat : List Nat),
      (∀ a ∈ ytrue, a = 0 ∨ a = 1) → (∀ b ∈ yhat, b = 0 ∨ b = 1) →
      (List.zipWith (fun a b => a &&& b) ytrue yhat).sum
        = (ytrue.zip yhat).countP (fun p => decide (p.1 = 1 ∧ p.2 = 1)) ∧
      (List.zipWith (fun a b => (1 - a) &&& (1 - b)) ytrue yhat).sum
        = (ytrue.zip yhat).countP (fun p => decide (p.1 = 0 ∧ p.2 = 0)) ∧
      (List.zipWith (fun a b => (1 - a) &&& b) ytrue yhat).sum
        = (ytrue.zip yhat).countP (fun p => decide (p.1 = 0 ∧ p.2 = 1)) ∧
      (List.zipWith (fun a b => a &&& (1 - b)) ytrue yhat).sum
        = (ytrue.zip yhat).countP (fun p => decide (p.1 = 1 ∧ p.2 = 0)) ∧
      (List.zipWith (fun a b => a &&& b) ytrue yhat).sum
        + (List.zipWith (fun a b => (1 - a) &&& (1 - b)) ytrue yhat).sum
        + (List.zipWith (fun a b => (1 - a) &&& b) ytrue yhat).sum
        + (List.zipWith (fun a b => a &&& (1 - b)) ytrue yhat).sum
        = (ytrue.zip yhat).length
  | [], _, _, _ => by simp
  | _ :: _, [], _, _ => by simp
  | a :: as, b :: bs, hb1, hb2 => by
    obtain ⟨ih1, ih2, ih3, ih4, ih5⟩ := confusion_counts as bs
      (fun x hx => hb1 x (List.mem_cons_of_mem _ hx))
      (fun x hx => hb2 x (List.mem_cons_of_mem _ hx))
    have ha : a = 0 ∨ a = 1 := hb1 a (List.mem_cons_self _ _)
    have hb : b = 0 ∨ b = 1 := hb2 b (List.mem_cons_self _ _)
    rcases ha with rfl | rfl <;> rcases hb with rfl | rfl <;>
      simp +decide [List.countP_cons] at ih1 ih2 ih3 ih4 ih5 ⊢ <;>
      omega

/-- **C7**: on equal-length binary sequences, `calc_TP_TN_FP_FN` returns
the four category counts (TP: true=1 ∧ predicted=1, TN: 0/0, FP: 0/1,
FN: 1/0), and they sum to the common length. -/
theorem C7_confusion_matrix (ytrue yhat : List Nat)
    (hlen : ytrue.length = yhat.length)
    (hb1 : ∀ a ∈ ytrue, a = 0 ∨ a = 1) (hb2 : ∀ b ∈ yhat, b = 0 ∨ b = 1) :
    ∃ TP TN FP FN,
      calc_TP_TN_FP_FN ytrue yhat = some (TP, TN, FP, FN) ∧
      TP = (ytrue.zip yhat).countP (fun p => decide (p.1 = 1 ∧ p.2 = 1)) ∧
      TN = (ytrue.zip yhat).countP (fun p => decide (p.1 = 0 ∧ p.2 = 0)) ∧
      FP = (ytrue.zip yhat).countP (fun p => decide (p.1 = 0 ∧ p.2 = 1)) ∧
      FN = (ytrue.zip yhat).countP (fun p => decide (p.1 = 1 ∧ p.2 = 0)) ∧
      TP + TN + FP + FN = ytrue.length := by
    have hc := confusion_counts ytrue yhat hb1 hb2
    refine ⟨_, _, _, _, by rw [calc_TP_TN_FP_FN, if_pos hlen], hc.1, hc.2.1,
      hc.2.2.1, hc.2.2.2.1, ?_⟩
    rw [hc.2.2.2.2, List.length_zip, hlen, Nat.min_self]

/-- Witness for C7 at the doctest input of `binary_metrics.py`. -/
theorem C7_confusion_matrix_witness :
    ([0, 0, 0, 0, 1, 1, 1, 1] : List Nat).length
        = ([0, 0, 1, 0, 1, 1, 0, 0] : List Nat).length ∧
    (∀ a ∈ ([0, 0, 0, 0, 1, 1, 1, 1] : List Nat), a = 0 ∨ a = 1) ∧
    (∀ b ∈ ([0, 0, 1, 0, 1, 1, 0, 0] : List Nat), b = 0 ∨ b = 1) ∧
    (∃ TP TN FP FN,
      calc_TP_TN_FP_FN [0, 0, 0, 0, 1, 1, 1, 1] [0, 0, 1, 0, 1, 1, 0, 0]
        = some (TP, TN, FP, FN) ∧
      TP = (([0, 0, 0, 0, 1, 1, 1, 1] : List Nat).zip
          [0, 0, 1, 0, 1, 1, 0, 0]).countP
          (fun p => decide (p.1 = 1 ∧ p.2 = 1)) ∧
      TN = (([0, 0, 0, 0, 1, 1, 1, 1] : List Nat).zip
          [0, 0, 1, 0, 1, 1, 0, 0]).countP
          (fun p => decide (p.1 = 0 ∧ p.2 = 0)) ∧
      FP = (([0, 0, 0, 0, 1, 1, 1, 1] : List Nat).zip
          [0, 0, 1, 0, 1, 1, 0, 0]).countP
          (fun p => decide (p.1 = 0 ∧ p.2 = 1)) ∧
      FN = (([0, 0, 0, 0, 1, 1, 1, 1] : List Nat).zip
          [0, 0, 1, 0, 1, 1, 0, 0]).countP
          (fun p => decide (p.1 = 1 ∧ p.2 = 0)) ∧
      TP + TN + FP + FN = ([0, 0, 0, 0, 1, 1, 1, 1] : List Nat).length) :=
  ⟨by decide, by decide, by decide,
    C7_confusion_matrix [0, 0, 0, 0, 1, 1, 1, 1] [0, 0, 1, 0, 1, 1, 0, 0]
      (by decide) (by decide) (by decide)⟩

/-- **C8**: on sequences of different lengths `calc_TP_TN_FP_FN` fails
immediately (the shape `assert` raises), returning no partial result. -/
theorem C8_shape_mismatch (ytrue yhat : List Nat)
    (hlen : ytrue.length ≠ yhat.length) :
    calc_TP_TN_FP_FN ytrue yhat = none := by
  simp [calc_TP_TN_FP_FN, hlen]

/-- Witness for C8 at a length-2 vs length-3 input. -/
theorem C8_shape_mismatch_witness :
    ([0, 1] : List Nat).length ≠ ([0, 1, 1] : List Nat).length ∧
    calc_TP_TN_FP_FN [0, 1] [0, 1, 1] = none :=
  ⟨by decide, C8_shape_mismatch [0, 1] [0, 1, 1] (by decide)⟩

/-! ## Helper lemmas: the ε-guarded ratios -/

theorem eps_pos : (0 : ℚ) < eps := by norm_num [eps]

theorem div_eps_bounds (num den : ℚ) (h0 : 0 ≤ num) (h1 : num ≤ den) :
    0 ≤ num / (den + eps) ∧ num / (den + eps) ≤ 1 := by
  have heps := eps_pos
  have hden : 0 < den + eps := by linarith
  refine ⟨div_nonneg h0 hden.le, ?_⟩
  rw [div_le_one hden]
  linarith

/-- **C9**: on equal-length binary sequences `calc_ACC`, `calc_TPR` and
`calc_PPV` return exactly the ε-guarded ratios of the confusion counts,
each lying in `[0, 1]`; on length-0 inputs `calc_TPR` and `calc_PPV`
return `0` rather than failing on a zero denominator.  (Python floats are
modelled as exact rationals.) -/
theorem C9_metric_ratios (ytrue yhat : List Nat)
    (hlen : ytrue.length = yhat.length)
    (hb1 : ∀ a ∈ ytrue, a = 0 ∨ a = 1) (hb2 : ∀ b ∈ yhat, b = 0 ∨ b = 1) :
    ∃ TP TN FP FN,
      calc_TP_TN_FP_FN ytrue yhat = some (TP, TN, FP, FN) ∧
      calc_ACC ytrue yhat
        = some (((TP : ℚ) + TN) / ((TP : ℚ) + TN + FP + FN + eps)) ∧
      calc_TPR ytrue yhat = some ((TP : ℚ) / ((TP : ℚ) + FN + eps)) ∧
      calc_PPV ytrue yhat = some ((TP : ℚ) / ((TP : ℚ) + FP + eps)) ∧
      (∀ q, calc_ACC ytrue yhat = some q → 0 ≤ q ∧ q ≤ 1) ∧
      (∀ q, calc_TPR ytrue yhat = some q → 0 ≤ q ∧ q ≤ 1) ∧
      (∀ q, calc_PPV ytrue yhat = some q → 0 ≤ q ∧ q ≤ 1) ∧
      (ytrue = [] → calc_TPR ytrue yhat = some 0 ∧ calc_PPV ytrue yhat
        = some 0) := by
  obtain ⟨TP, TN, FP, FN, hsome⟩ :
      ∃ TP TN FP FN, calc_TP_TN_FP_FN ytrue yhat = some (TP, TN, FP, FN) :=
    ⟨_, _, _, _, by rw [calc_TP_TN_FP_FN, if_pos hlen]⟩
  have hACC : calc_ACC ytrue yhat
      = some (((TP : ℚ) + TN) / ((TP : ℚ) + TN + FP + FN + eps)) := by
    rw [calc_ACC, hsome, Option.map_some']
  have hTPR : calc_TPR ytrue yhat
      = some ((TP : ℚ) / ((TP : ℚ) + FN + eps)) := by
    rw [calc_TPR, hsome, Option.map_some']
  have hPPV : calc_PPV ytrue yhat
      = some ((TP : ℚ) / ((TP : ℚ) + FP + eps)) := by
    rw [calc_PPV, hsome, Option.map_some']
  have hTP : (0 : ℚ) ≤ (TP : ℚ) := Nat.cast_nonneg TP
  have hTN : (0 : ℚ) ≤ (TN : ℚ) := Nat.cast_nonneg TN
  have hFP : (0 : ℚ) ≤ (FP : ℚ) := Nat.cast_nonneg FP
  have hFN : (0 : ℚ) ≤ (FN : ℚ) := Nat.cast_nonneg FN
  refine ⟨TP, TN, FP, FN, hsome, hACC, hTPR, hPPV, ?_, ?_, ?_, ?_⟩
  · intro q hq
    rw [hACC, Option.some.injEq] at hq
    subst hq
    exact div_eps_bounds _ _ (by linarith) (by linarith)
  · intro q hq
    rw [hTPR, Option.some.injEq] at hq
    subst hq
    exact div_eps_bounds _ _ (by linarith) (by linarith)
  · intro q hq
    rw [hPPV, Option.some.injEq] at hq
    subst hq
    exact div_eps_bounds _ _ (by linarith) (by linarith)
  · intro hnil
    subst hnil
    have hnil2 : yhat = [] := by
      rw [List.length_nil] at hlen
      exact List.eq_nil_of_length_eq_zero hlen.symm
    subst hnil2
    constructor
    · norm_num [calc_TPR, calc_TP_TN_FP_FN]
    · norm_num [calc_PPV, calc_TP_TN_FP_FN]

/-- Witness for C9 at the empty input (the degenerate case the claim
singles out). -/
theorem C9_metric_ratios_witness :
    ([] : List Nat).length = ([] : List Nat).length ∧
    (∀ a ∈ ([] : List Nat), a = 0 ∨ a = 1) ∧
    (∀ b ∈ ([] : List Nat), b = 0 ∨ b = 1) ∧
    (∃ TP TN FP FN,
      calc_TP_TN_FP_FN [] [] = some (TP, TN, FP, FN) ∧
      calc_ACC [] []
        = some (((TP : ℚ) + TN) / ((TP : ℚ) + TN + FP + FN + eps)) ∧
      calc_TPR [] [] = some ((TP : ℚ) / ((TP : ℚ) + FN + eps)) ∧
      calc_PPV [] [] = some ((TP : ℚ) / ((TP : ℚ) + FP + eps)) ∧
      (∀ q, calc_ACC [] [] = some q → 0 ≤ q ∧ q ≤ 1) ∧
      (∀ q, calc_TPR [] [] = some q → 0 ≤ q ∧ q ≤ 1) ∧
      (∀ q, calc_PPV [] [] = some q → 0 ≤ q ∧ q ≤ 1) ∧
      (([] : List Nat) = [] → calc_TPR [] [] = some 0 ∧ calc_PPV [] []
        = some 0)) :=
  ⟨rfl, by decide, by decide,
    C9_metric_ratios [] [] rfl (by decide) (by decide)⟩
